import Mathlib

/-!
Shallow embedding of the retrieval/ranking/cascade core of the album-ai-backend
repository (primary source: `src/unnamed/part_008`, the full `/api/ai-expert.js`
variant; plus the `mode = "ask"` branch of `src/api/ai.js`).

Strings are modelled as `List Char` (one entry per code point).  JavaScript
numbers used as scores are `Nat`; the confidence ratio is modelled exactly in
`ℚ` (the JS source computes it in binary floating point; all properties proved
here are about the exact rational value).  Asynchronous provider calls are
modelled as pure functions returning `Option (List Char)`: `none` stands for a
rejected promise (HTTP error, malformed payload, or abort on timeout), `some s`
for a resolved call with text `s`.
-/

namespace AlbumAI

attribute [local semireducible] Rat.add Rat.mul Rat.inv

/-- Shorthand turning a Lean string literal into the `List Char` the model works over. -/
def str (s : String) : List Char := s.data

/-- One character of the JavaScript whitespace class `\s` (the characters that
can actually occur in this code base; the full JS class also has the remaining
Unicode space separators). -/
def isJsSpace (c : Char) : Bool :=
  c = ' ' || c = '\t' || c = '\n' || c = '\r' ||
    c = Char.ofNat 11 || c = Char.ofNat 12 || c = Char.ofNat 0xa0 || c = Char.ofNat 0xfeff

/-- ASCII case folding, the effective behaviour of `toLowerCase` on this data. -/
def lowerChar (c : Char) : Char :=
  if 'A' ≤ c ∧ c ≤ 'Z' then Char.ofNat (c.toNat + 32) else c

/-- Membership in the character class `[a-z0-9\s\-_/.:]` kept by `normalize`. -/
def isKeptChar (c : Char) : Bool :=
  (decide ('a' ≤ c) && decide (c ≤ 'z')) || (decide ('0' ≤ c) && decide (c ≤ '9')) ||
    isJsSpace c || c = '-' || c = '_' || c = '/' || c = '.' || c = ':'

/-- Replace every run of `\s` characters by a single space, as
`.replace(/\s+/g, " ")` does; the flag records whether the previous character
was part of a whitespace run. -/
def collapseWsGo : List Char → Bool → List Char
  | [], _ => []
  | c :: cs, prevWs =>
    if isJsSpace c then
      if prevWs then collapseWsGo cs true else ' ' :: collapseWsGo cs true
    else c :: collapseWsGo cs false

def collapseWs (l : List Char) : List Char := collapseWsGo l false

/-- JavaScript `String.prototype.trim`: drop whitespace from both ends. -/
def jsTrim (l : List Char) : List Char :=
  (((l.dropWhile isJsSpace).reverse).dropWhile isJsSpace).reverse

/-- The `normalize` helper of part_008 (lines 49-56): lower-case, map curly
quotes to straight ones, blank out everything outside `[a-z0-9\s\-_/.:]`,
collapse whitespace runs, trim. -/
def normalize (s : List Char) : List Char :=
  let s1 := s.map lowerChar
  let s2 := s1.map fun c => if c = '“' ∨ c = '”' then Char.ofNat 34 else c
  let s3 := s2.map fun c => if c = '‘' ∨ c = '’' then Char.ofNat 39 else c
  let s4 := s3.map fun c => if isKeptChar c then c else ' '
  jsTrim (collapseWs s4)

/-- Split on a single character, JavaScript `split` semantics
(`"" ↦ [""]`, separators at the ends produce empty fields). -/
def splitOnChar (sep : Char) : List Char → List (List Char)
  | [] => [[]]
  | c :: cs =>
    match splitOnChar sep cs with
    | [] => [[]]
    | h :: t => if c = sep then [] :: h :: t else (c :: h) :: t

/-- The `TOK` helper of part_008 (line 58): normalized words of a string. -/
def TOK (s : List Char) : List (List Char) :=
  (splitOnChar ' ' (normalize s)).filter (· ≠ [])

/-- Join a list of strings with a separator, JavaScript `Array.join`. -/
def joinSep (sep : List Char) : List (List Char) → List Char
  | [] => []
  | [x] => x
  | x :: y :: t => x ++ sep ++ joinSep sep (y :: t)

/-- Decimal rendering of a number, as JS template interpolation does. -/
def natStr (n : Nat) : List Char := (Nat.repr n).data

/- ----------------------- built-in KB (part_008 lines 62-132) ---------------- -/

structure KbDoc where
  id : List Char
  topic : List Char
  title : List Char
  text : List Char
deriving DecidableEq

structure KBStruct where
  docs : List KbDoc

/-- The static knowledge base of part_008, with the `OWNER` template fields
already interpolated (their joins are constant). -/
def KB : KBStruct :=
  ⟨[ ⟨str "aavss-overview", str "aavss", str "AAVSS — Overview",
      str "AAVSS (Advanced Autonomous Vehicle Safety System) is a real-time safety and perception stack. Core: multi-sensor fusion (LiDAR + mmWave radar + RGB camera). Embedded target: NVIDIA Jetson (Nano-class) with TensorRT optimizations. Typical end-to-end latency sub-100 ms at 10–20 FPS depending on model sizes."⟩,
     ⟨str "aavss-sensors", str "aavss", str "AAVSS — Sensors & Roles",
      str "Roles:\n• LiDAR → 3D structure, obstacle shape, drivable free-space.\n• mmWave radar → range + radial velocity, robust in rain/fog, complements vision.\n• RGB camera → traffic lights/signs, lane markings, and VRU detection.\nExact SKUs vary by build; add your sensor models to docs.json or PDF for precise answers."⟩,
     ⟨str "aavss-pipeline", str "aavss", str "AAVSS — Fusion Pipeline (high level)",
      str "Calibration → time-sync → per-sensor detection/feature extraction → object association → tracking → risk scoring/alerting. Safety analytics delivered in-cabin as HUD/alerts."⟩,
     ⟨str "sld-overview", str "sldataset", str "Sri Lanka Autonomous Driving Dataset — Overview",
      str "Open driving dataset across Sri Lankan road scenarios (urban/rural; rain, fog, night). Includes annotations for lanes, signs, and hazards. Example media included; add PDFs for specs."⟩,
     ⟨str "about-owner", str "about", str "Ownership & Concept",
      str "Owner/Concept/Manufacturer: Sachintha Gaurawa. Roles: Owner, Concept designer, Manufacturer. Primary projects: AAVSS (Advanced Autonomous Vehicle Safety System), Sri Lanka Autonomous Driving Dataset."⟩,
     ⟨str "about-whois", str "about", str "Who is Sachintha Gaurawa?",
      str "Sachintha Gaurawa — Engineer and creator focused on autonomous driving, embedded AI, and safety systems. Leads development and product direction for AAVSS and the Sri Lanka dataset efforts."⟩ ]⟩

/- ----------------- retrieval scoring (part_008 lines 149-158) --------------- -/

/-- The lexical scorer `scoreText`: `+3` for `" tok "` inside, `"tok "` at the
start or `" tok"` at the end of the normalized text, else `+1` for a plain
substring hit, summed over the non-empty query tokens. -/
def scoreText (qTokens : List (List Char)) (text : List Char) : Nat :=
  let t := normalize text
  qTokens.foldl
    (fun s tok =>
      if tok = [] then s
      else if (' ' :: tok ++ [' ']) <:+: t ∨ (tok ++ [' ']) <+: t ∨ (' ' :: tok) <:+ t then
        s + 3
      else if tok <:+: t then s + 1
      else s)
    0

/- ----------------- topic detection (part_008 lines 160-166) ----------------- -/

/-- A keyword occurrence `(^|\s)w(\s|$)`: `w` matches here and the following
character is whitespace or the end. -/
def keywordHere (w t : List Char) : Bool :=
  w.isPrefixOf t &&
    match t.drop w.length with
    | [] => true
    | c :: _ => isJsSpace c

/-- Scan all positions of `t`; the flag says whether the current position is
the start of the string or preceded by whitespace. -/
def hasBoundedKw (ws : List (List Char)) : List Char → Bool → Bool
  | [], atB => atB && ws.any fun w => keywordHere w []
  | c :: cs, atB =>
    (atB && ws.any fun w => keywordHere w (c :: cs)) || hasBoundedKw ws cs (isJsSpace c)

def aavssKeywords : List (List Char) :=
  [str "aavss", str "fusion", str "radar", str "lidar", str "jetson", str "adas",
   str "safety", str "tensorrt", str "hud", str "driver monitoring"]

def sldatasetKeywords : List (List Char) :=
  [str "dataset", str "data set", str "sri lanka", str "annotation", str "label",
   str "split", str "download", str "license", str "classes", str "night driving"]

def aboutKeywords : List (List Char) :=
  [str "owner", str "manufactur", str "concept", str "who is", str "who are",
   str "about", str "sachintha"]

/-- The `detectTopic` of part_008: first matching keyword group wins, else `all`. -/
def detectTopic (question : List Char) : List Char :=
  let n := normalize question
  if hasBoundedKw aavssKeywords n true then str "aavss"
  else if hasBoundedKw sldatasetKeywords n true then str "sldataset"
  else if hasBoundedKw aboutKeywords n true then str "about"
  else str "all"

/- ----------------------- small talk (part_008 lines 306-315) ---------------- -/

def isWordChar (c : Char) : Bool :=
  (decide ('a' ≤ c) && decide (c ≤ 'z')) || (decide ('A' ≤ c) && decide (c ≤ 'Z')) ||
    (decide ('0' ≤ c) && decide (c ≤ '9')) || c = '_'

/-- Anchored match `^w\b`: `w` is a prefix and is followed by a non-word
character or the end of the string. -/
def prefixWithBoundary (w q : List Char) : Bool :=
  w.isPrefixOf q &&
    match q.drop w.length with
    | [] => true
    | c :: _ => !isWordChar c

def greetWords : List (List Char) :=
  [str "hi", str "hey", str "hello", str "ayubowan",
   str "good morning", str "good evening", str "good afternoon"]

def thanksWords : List (List Char) :=
  [str "thanks", str "thank you", str "cheers", str "appreciate"]

def byeWords : List (List Char) :=
  [str "bye", str "goodbye", str "see you", str "catch you"]

structure SmallTalkReply where
  kind : List Char
  reply : List Char
deriving DecidableEq

/-- The `smallTalk` of part_008: greeting needs a trailing word boundary (`\b`),
thanks and goodbye are bare prefix matches on the normalized question. -/
def smallTalk (question : List Char) : Option SmallTalkReply :=
  let q := normalize question
  if greetWords.any fun w => prefixWithBoundary w q then
    some ⟨str "greet",
      str "Hi there! I\x27m your assistant 🤝  Ask me about **AAVSS**, the **Sri Lanka dataset**, or upload a PDF for deeper answers.\nI can also **generate images** or **browse references**. What shall we do first?"⟩
  else if thanksWords.any fun w => w.isPrefixOf q then
    some ⟨str "thanks", str "You’re welcome! 😊  Want me to summarize something next?"⟩
  else if byeWords.any fun w => w.isPrefixOf q then
    some ⟨str "bye", str "Goodbye! 👋 If you need me again, just open the assistant."⟩
  else none

/- ----------------- retrieval (part_008 lines 168-210) ----------------------- -/

/-- A dynamically ingested PDF chunk as served by `/api/docs.json`. -/
structure PdfChunk where
  id : List Char
  title : List Char
  text : List Char
  page : Nat
  url : List Char
deriving DecidableEq

/-- A ranked retrieval unit, the object shape produced inside `topK`; `topic`,
`page` and `url` are optional because the three map sites put different fields
on the object (the fallback path spreads the whole KB doc, so only there does
`topic` appear). -/
structure RU where
  type : List Char
  id : List Char
  title : List Char
  text : List Char
  topic : Option (List Char) := none
  page : Option Nat := none
  url : Option (List Char) := none
  s : Nat
deriving DecidableEq

/-- Stable descending insertion by score: an element goes after every element
with a strictly greater or equal score that came before it, matching the
stable `sort((a, b) => b.s - a.s)` of the source. -/
def insertDesc (x : RU) : List RU → List RU
  | [] => [x]
  | y :: ys => if y.s > x.s then y :: insertDesc x ys else x :: y :: ys

def sortByScoreDesc : List RU → List RU
  | [] => []
  | x :: xs => insertDesc x (sortByScoreDesc xs)

/-- The KB pool of `topK`: every doc for topic `all` (and, because the filter
predicate is a disjunction ending in `topic === "about"`, also every doc for
topic `about`); otherwise the docs tagged with the topic or with `all`. -/
def kbPoolFor (topic : List Char) : List KbDoc :=
  if topic = str "all" then KB.docs
  else KB.docs.filter fun d => decide (d.topic = topic ∨ d.topic = str "all" ∨ topic = str "about")

/-- The ranked-unit object built for a KB doc inside `topK` (no `topic` field
is copied on this path). -/
def kbRU (qTok : List (List Char)) (d : KbDoc) : RU :=
  { type := str "kb", id := d.id, title := d.title, text := d.text,
    s := scoreText qTok (d.title ++ '\n' :: d.text) }

/-- The ranked-unit object built for a PDF chunk inside `topK`. -/
def pdfRU (qTok : List (List Char)) (ch : PdfChunk) : RU :=
  { type := str "pdf", id := ch.id, title := ch.title, text := ch.text,
    page := some ch.page, url := some ch.url,
    s := scoreText qTok (ch.title ++ '\n' :: ch.text) }

/-- The object built on the fallback path, an object spread of the KB doc plus
`s := 1` (so here the `topic` field is present). -/
def fallbackRU (d : KbDoc) : RU :=
  { type := str "kb", id := d.id, topic := some d.topic, title := d.title, text := d.text, s := 1 }

/-- The `kbRanked` list of `topK`: scored KB pool, positive scores only. -/
def kbRankedFor (question topic : List Char) : List RU :=
  ((kbPoolFor topic).map (kbRU (TOK question))).filter fun x => decide (0 < x.s)

/-- The `pdfRanked` list of `topK`: scored PDF chunks (note: no topic filter at all),
positive scores only. -/
def pdfRankedFor (question : List Char) (pdfDocs : List PdfChunk) : List RU :=
  (pdfDocs.map (pdfRU (TOK question))).filter fun x => decide (0 < x.s)

/-- The `all` list of `topK`: merged, sorted descending by score, truncated to `k`. -/
def mergedFor (question : List Char) (k : Nat) (topic : List Char) (pdfDocs : List PdfChunk) :
    List RU :=
  (sortByScoreDesc (kbRankedFor question topic ++ pdfRankedFor question pdfDocs)).take k

/-- The `topK` of part_008: filter the KB pool by topic (`about` admits every doc),
score KB docs and all PDF chunks, keep positive scores, merge, sort
descending, truncate to `k`; when that is empty fall back to the canonical
overview doc of the topic (no fallback for topic `all`). -/
def topK (question : List Char) (k : Nat) (topic : List Char) (pdfDocs : List PdfChunk) :
    List RU :=
  if mergedFor question k topic pdfDocs = [] then
    if topic = str "aavss" then
      (KB.docs.filter fun d => decide (d.id = str "aavss-overview")).map fallbackRU
    else if topic = str "sldataset" then
      (KB.docs.filter fun d => decide (d.id = str "sld-overview")).map fallbackRU
    else if topic = str "about" then
      (KB.docs.filter fun d => decide (d.id = str "about-owner")).map fallbackRU
    else mergedFor question k topic pdfDocs
  else mergedFor question k topic pdfDocs

structure ContextBundle where
  ctx : List Char
  ids : List (List Char)
  confidence : ℚ

/-- Rendering of one selected unit: `#<rank> <title>\n<text>`. -/
def mkCtxBlock (i : Nat) (d : RU) : List Char :=
  '#' :: natStr (i + 1) ++ ' ' :: d.title ++ '\n' :: d.text

/-- Provenance identifier of a unit, `pdf:` ids carrying title, page and url. -/
def mkId (d : RU) : List Char :=
  if d.type = str "pdf" then
    str "pdf:" ++ d.id ++ '|' :: d.title ++ str "|page=" ++ natStr (d.page.getD 0) ++
      '|' :: d.url.getD []
  else str "kb:" ++ d.id ++ '|' :: d.title

/-- The `Math.max(...ranked.map(r => r.s), 1)` of `buildContext`. -/
def maxUnitFor (ranked : List RU) : Nat := (ranked.map RU.s).foldr Nat.max 1

/-- The confidence ratio of `buildContext`: mean of score over max score,
clamped with `Math.min(1, ·)`, and `0` for an empty selection. -/
def confidenceFor (ranked : List RU) : ℚ :=
  min 1 (if ranked.length = 0 then 0
         else (ranked.foldl (fun a r => a + (r.s : ℚ) / (maxUnitFor ranked : ℚ)) 0) /
           (ranked.length : ℚ))

/-- The `buildContext` of part_008 (lines 201-210), with the confidence ratio in
exact rational arithmetic. -/
def buildContext (question topic : List Char) (pdfDocs : List PdfChunk) : ContextBundle :=
  ⟨joinSep (str "\n\n") ((topK question 8 topic pdfDocs).enum.map fun p => mkCtxBlock p.1 p.2),
   (topK question 8 topic pdfDocs).map mkId,
   confidenceFor (topK question 8 topic pdfDocs)⟩

/- ----------------- prompting (part_008 lines 255-302) ----------------------- -/

def systemPrompt (topic : List Char) : List Char :=
  joinSep (str " ")
    [str "You are a warm, helpful technical assistant for an album/portfolio site.",
     str "Respond ONLY with facts found in the provided Knowledge Base (KB) below.",
     str "If something isn\x27t in the KB, say so briefly and invite the user to provide/ingest a PDF.",
     str "Prefer short paragraphs and bullets. Use **bold** for key terms. Include friendly emojis sparingly.",
     str "Topic focus: " ++ topic ++ str ". Stay on one topic unless user explicitly asks to compare.",
     str "Keep tone human, supportive, and concise. Offer 2–4 smart follow-up questions."]

def userPrompt (question ctx : List Char) : List Char :=
  joinSep (str "\n")
    [str "KB:",
     str "\x22\x22\x22",
     (if ctx = [] then str "NO CONTEXT" else ctx),
     str "\x22\x22\x22",
     [],
     str "User question: " ++ question,
     [],
     str "Instructions:",
     str "- Use only KB facts. Do not invent specifics (e.g., exact sensor SKUs) unless present.",
     str "- If unknown, say it\x27s unspecified and suggest uploading or adding the detail.",
     str "- Provide clear, practical guidance. Bullets preferred for lists."]

def buildFollowups (topic : List Char) : List (List Char) :=
  if topic = str "aavss" then
    [str "Want a quick architecture diagram explanation?",
     str "Should I list recommended calibration steps?",
     str "Do you want safety alert thresholds and examples?",
     str "Upload your sensor SKUs for model-specific guidance?"]
  else if topic = str "sldataset" then
    [str "Do you need splits for train/val/test?",
     str "Should I outline annotation formats and examples?",
     str "Want evaluation metrics you can track?",
     str "Need license summary and allowed use?"]
  else
    [str "Want an overview of AAVSS vs the Dataset?",
     str "Shall I suggest next steps or a quick start?",
     str "Do you want me to search images or generate visuals?"]

/- ----------------- provider cascade (part_008 lines 381-394) ---------------- -/

/-- An answer provider as the cascade sees one: a name and the adapter call,
`none` for a rejected promise (error, non-2xx, or abort at the 30 s timeout),
`some s` for a call resolving with text `s`. -/
structure Provider where
  name : List Char
  fn : List Char → List Char → Option (List Char)

/-- Trace of one loop iteration: `withTimeout(30_000)` starts a 30 s abort
timer; `t.clear()` is reached only when the call resolves (the catch block of
the source does not clear it), so `cleared` is exactly `isSome` of the
outcome. -/
structure Attempt where
  name : List Char
  timeoutMs : Nat
  cleared : Bool
deriving DecidableEq

def attemptOf (sys usr : List Char) (p : Provider) : Attempt :=
  ⟨p.name, 30000, (p.fn sys usr).isSome⟩

structure CascadeOut where
  answer : List Char
  provider : List Char
  attempts : List Attempt
deriving DecidableEq

/-- The provider loop of the handler: stop at the first resolved non-empty
text, keep going on a throw or on empty text. -/
def runCascade (sys usr : List Char) : List Provider → CascadeOut
  | [] => ⟨[], [], []⟩
  | p :: ps =>
    match p.fn sys usr with
    | none =>
      let r := runCascade sys usr ps
      ⟨r.answer, r.provider, attemptOf sys usr p :: r.attempts⟩
    | some ans =>
      if ans = [] then
        let r := runCascade sys usr ps
        ⟨r.answer, r.provider, attemptOf sys usr p :: r.attempts⟩
      else ⟨ans, p.name, [attemptOf sys usr p]⟩

/- ----------------- stitched KB fallback (part_008 lines 396-414) ------------ -/

/-- One numbered entry of the stitched fallback, rebuilt from a provenance id
string: split at `:` into kind and rest, then take the field before the first
`|` of rest (for both kinds that field is the unit id). -/
def stitchEntry (i : Nat) (idStr : List Char) : List Char :=
  let parts := splitOnChar ':' idStr
  let kind := parts.headD []
  let rest := (parts.get? 1).getD []
  if kind = str "kb" then
    let kbId := (splitOnChar '|' rest).headD []
    match KB.docs.find? fun d => decide (d.id = kbId) with
    | some d => '(' :: natStr (i + 1) ++ str ") " ++ d.title ++ '\n' :: d.text
    | none => []
  else if kind = str "pdf" then
    let first := (splitOnChar '|' rest).headD []
    '(' :: natStr (i + 1) ++ str ") " ++ first ++ str " (from PDF)"
  else []

def stitchedFallback (ids : List (List Char)) : List Char :=
  joinSep (str "\n\n") ((ids.enum.map fun p => stitchEntry p.1 p.2).filter (· ≠ []))

/- ----------------- answer post-processing (part_008 line 416) --------------- -/

/-- Replacement text for one maximal newline run: runs of three or more become
exactly two. -/
def emitN (n : Nat) : List Char :=
  if 3 ≤ n then ['\n', '\n'] else List.replicate n '\n'

/-- Scan with the length of the pending newline run as state. -/
def collapseGo : List Char → Nat → List Char
  | [], n => emitN n
  | c :: cs, n => if c = '\n' then collapseGo cs (n + 1) else emitN n ++ c :: collapseGo cs 0

/-- The `replace` of three-or-more consecutive newlines by two. -/
def collapseNewlines (l : List Char) : List Char := collapseGo l 0

/-- The answer polish of part_008 line 416: trim, then collapse newline runs. -/
def finalizeAnswer (l : List Char) : List Char := collapseNewlines (jsTrim l)

/- ----------------- the HTTP handler (part_008 lines 319-426) ---------------- -/

/-- Observable outcome of one request: the JSON fields of the response plus a
trace of the provider attempts and whether retrieval ran. -/
structure HandlerResult where
  status : Nat
  answer : List Char
  provider : List Char
  topic : List Char
  sources : List (List Char)
  followups : List (List Char)
  attempts : List Attempt
  retrieved : Bool
deriving DecidableEq

def clarifyAnswer : List Char :=
  str "I can help best if I know the topic. Which would you like to talk about? (AAVSS, Dataset, or About) 🙂"

def clarifyFollowups : List (List Char) :=
  [str "Switch to AAVSS (vehicle safety system)?",
   str "Switch to Sri Lankan Driving Dataset?",
   str "Switch to About/Ownership?"]

def apology : List Char :=
  str "I couldn’t reach the AI providers just now. Here’s a concise summary from the knowledge base:\n\n"

/-- The `answer || kb-fallback` epilogue of the handler: run the cascade on the
assembled prompts, fall back to the stitched KB answer when it produces no
text, polish, and shape the 200 response. -/
def askProviders (question topic : List Char) (bc : ContextBundle) (provs : List Provider) :
    HandlerResult :=
  if (runCascade (systemPrompt topic) (userPrompt question bc.ctx) provs).answer = [] then
    ⟨200,
     finalizeAnswer (apology ++
       (if stitchedFallback bc.ids = [] then str "No KB matches found."
        else stitchedFallback bc.ids)),
     str "kb-fallback", topic, bc.ids, buildFollowups topic,
     (runCascade (systemPrompt topic) (userPrompt question bc.ctx) provs).attempts, true⟩
  else
    ⟨200,
     finalizeAnswer (runCascade (systemPrompt topic) (userPrompt question bc.ctx) provs).answer,
     (runCascade (systemPrompt topic) (userPrompt question bc.ctx) provs).provider,
     topic, bc.ids, buildFollowups topic,
     (runCascade (systemPrompt topic) (userPrompt question bc.ctx) provs).attempts, true⟩

/-- The POST path of the part_008 handler, after body parsing: ping sentinel,
missing-question check, small talk, topic detection and retrieval, the
low-context/low-confidence clarification gate, the provider cascade, the
stitched KB fallback, and the final polish.  `pdfDocs` stands for the chunks
`readDocsStore` currently returns and `provs` for the credential-filtered
provider list. -/
def handler (question : List Char) (pdfDocs : List PdfChunk) (provs : List Provider) :
    HandlerResult :=
  if question = str "__ping__" then ⟨200, [], [], [], [], [], [], false⟩
  else if question = [] then ⟨400, str "Missing question", [], [], [], [], [], false⟩
  else
    match smallTalk question with
    | some st =>
      ⟨200, st.reply, str "smalltalk", str "general", [], buildFollowups (str "all"), [], false⟩
    | none =>
      if (buildContext question (detectTopic question) pdfDocs).ctx = [] ∨
          (buildContext question (detectTopic question) pdfDocs).ctx.length < 20 ∨
          (buildContext question (detectTopic question) pdfDocs).confidence < 3 / 20 then
        ⟨200, clarifyAnswer, str "clarify", str "general", [], clarifyFollowups, [], true⟩
      else
        askProviders question (detectTopic question)
          (buildContext question (detectTopic question) pdfDocs) provs

/- ----------------- the ask mode of src/api/ai.js (lines 205-241) ------------ -/

/-- One provider slot of /api/ai: whether its credential is configured, and the
outcome of its call when invoked (`none` = the call throws). -/
structure AiProv where
  configured : Bool
  name : List Char
  outcome : Option (List Char)

structure AiAskResponse where
  status : Nat
  answer : List Char
  provider : List Char
  error : List Char
deriving DecidableEq

/-- Cascade of /api/ai ask mode: each configured provider is tried under its
own timeout and its resolved text is returned as-is (even empty); when no
provider is configured or every configured call throws, the endpoint answers
502. -/
def aiAskCascade : List AiProv → AiAskResponse
  | [] => ⟨502, [], [], str "No provider available or all providers failed."⟩
  | p :: ps =>
    if p.configured then
      match p.outcome with
      | some ans => ⟨200, ans, p.name, []⟩
      | none => aiAskCascade ps
    else aiAskCascade ps

/-- Validation prologue of /api/ai ask mode. -/
def aiAsk (question context : List Char) (provs : List AiProv) : AiAskResponse :=
  if question = [] ∨ context = [] then ⟨400, [], [], str "Missing question/context"⟩
  else if 2000 < question.length then ⟨413, [], [], str "Question too long"⟩
  else aiAskCascade provs

/- ===================== spec-side definitions for C3 ======================== -/

/-- Occurrence of `tok` at position `i` of `t` with a left boundary (string
start or a space immediately before) and a right boundary (string end or a
space immediately after). -/
def wordAt (tok t : List Char) (i : Nat) : Bool :=
  decide (tok <+: t.drop i) &&
    (decide (i = 0) || decide (t[i - 1]? = some ' ')) &&
    (decide (t.length ≤ i + tok.length) || decide (t[i + tok.length]? = some ' '))

/-- Whole-word occurrence as the claim words it: bounded by spaces or by
string start/end, with the token-equals-text case allowed. -/
def wholeWordClaim (tok t : List Char) : Bool :=
  (List.range (t.length + 1)).any fun i => wordAt tok t i

/-- Whole-word occurrence as amended: bounded by spaces or by string
start/end, except that the occurrence may not be the entire string (at least
one bounding space must be present). -/
def wholeWordPadded (tok t : List Char) : Bool :=
  (List.range (t.length + 1)).any fun i =>
    wordAt tok t i && !(decide (i = 0) && decide (t.length ≤ i + tok.length))

/-- Per-token weight of the score exactly as C3 words it. -/
def tokWeightClaim (t tok : List Char) : Nat :=
  if tok = [] then 0
  else if wholeWordClaim tok t then 3
  else if tok <:+: t then 1
  else 0

/-- The lexical score exactly as C3 words it. -/
def scoreClaim (qTokens : List (List Char)) (text : List Char) : Nat :=
  (qTokens.map (tokWeightClaim (normalize text))).sum

/-- Per-token weight of the amended C3. -/
def tokWeightPadded (t tok : List Char) : Nat :=
  if tok = [] then 0
  else if wholeWordPadded tok t then 3
  else if tok <:+: t then 1
  else 0

/-- The lexical score of the amended C3. -/
def scoreAmended (qTokens : List (List Char)) (text : List Char) : Nat :=
  (qTokens.map (tokWeightPadded (normalize text))).sum

/- ===================== further spec-side definitions ======================= -/

/-- The canonical overview unit id the spec designates per topic. -/
def canonicalId (topic : List Char) : List Char :=
  if topic = str "aavss" then str "aavss-overview"
  else if topic = str "sldataset" then str "sld-overview"
  else str "about-owner"

/-- Some three consecutive newlines occur in the string. -/
def hasTriple : List Char → Bool
  | a :: b :: c :: rest =>
    (a = '\n' && b = '\n' && c = '\n') || hasTriple (b :: c :: rest)
  | _ => false

/-- The first character, when there is one, is not whitespace. -/
def headCharOk (l : List Char) : Prop :=
  ∀ c ∈ l.head?, isJsSpace c = false

/-- The last character, when there is one, is not whitespace. -/
def lastCharOk (l : List Char) : Prop :=
  ∀ c ∈ l.getLast?, isJsSpace c = false

/-- Per-token weight implicit in the `scoreText` fold. -/
def tokWeightCode (t tok : List Char) : Nat :=
  if tok = [] then 0
  else if (' ' :: tok ++ [' ']) <:+: t ∨ (tok ++ [' ']) <+: t ∨ (' ' :: tok) <:+ t then 3
  else if tok <:+: t then 1
  else 0

lemma scoreText_foldl_eq (t : List Char) (l : List (List Char)) :
    ∀ s : Nat,
      (l.foldl
        (fun s tok =>
          if tok = [] then s
          else if (' ' :: tok ++ [' ']) <:+: t ∨ (tok ++ [' ']) <+: t ∨ (' ' :: tok) <:+ t then
            s + 3
          else if tok <:+: t then s + 1
          else s)
        s) = s + (l.map (tokWeightCode t)).sum := by
  induction l with
  | nil => intro s; simp
  | cons tok l ih =>
    intro s
    simp only [List.foldl_cons, List.map_cons, List.sum_cons]
    rw [ih]
    unfold tokWeightCode
    split_ifs <;> omega

lemma scoreText_eq_sum (qTokens : List (List Char)) (text : List Char) :
    scoreText qTokens text = (qTokens.map (tokWeightCode (normalize text))).sum := by
  unfold scoreText
  rw [scoreText_foldl_eq (normalize text) qTokens 0]
  omega

/-- Introduce a whole-word occurrence from an explicit decomposition. -/
lemma wordAt_of_append (tok t p q : List Char) (ht : t = p ++ tok ++ q)
    (hl : p = [] ∨ ∃ u, p = u ++ [' ']) (hr : q = [] ∨ ∃ u, q = ' ' :: u) :
    wordAt tok t p.length = true := by
  subst ht
  unfold wordAt
  simp only [Bool.and_eq_true, Bool.or_eq_true, decide_eq_true_eq]
  refine ⟨⟨?_, ?_⟩, ?_⟩
  · rw [show p ++ tok ++ q = p ++ (tok ++ q) by simp, List.drop_left]
    exact List.prefix_append tok q
  · rcases hl with rfl | ⟨u, rfl⟩
    · exact Or.inl rfl
    · refine Or.inr ?_
      rw [show (u ++ [' ']).length - 1 = u.length by simp]
      rw [show u ++ [' '] ++ tok ++ q = u ++ (' ' :: (tok ++ q)) by simp]
      rw [List.getElem?_append_right (by simp)]
      simp
  · rcases hr with rfl | ⟨u, rfl⟩
    · refine Or.inl ?_
      simp
    · refine Or.inr ?_
      rw [show p ++ tok ++ ' ' :: u = (p ++ tok) ++ (' ' :: u) by simp]
      rw [List.getElem?_append_right (by simp)]
      simp

/-- Extract an explicit decomposition from a whole-word occurrence. -/
lemma wordAt_elim (tok t : List Char) (i : Nat) (hi : i ≤ t.length)
    (h : wordAt tok t i = true) :
    ∃ p q, t = p ++ tok ++ q ∧ p.length = i ∧
      (p = [] ∨ ∃ u, p = u ++ [' ']) ∧
      (t.length ≤ i + tok.length → q = []) ∧
      (¬ t.length ≤ i + tok.length → ∃ u, q = ' ' :: u) := by
  unfold wordAt at h
  simp only [Bool.and_eq_true, Bool.or_eq_true, decide_eq_true_eq] at h
  obtain ⟨⟨⟨r, hr⟩, hleft⟩, hright⟩ := h
  refine ⟨t.take i, r, ?_, ?_, ?_, ?_, ?_⟩
  · conv_lhs => rw [← List.take_append_drop i t]
    rw [← hr]
    simp
  · simp [hi]
  · rcases Nat.eq_zero_or_pos i with rfl | hpos
    · exact Or.inl (by simp)
    · refine Or.inr ?_
      obtain ⟨j, rfl⟩ : ∃ j, i = j + 1 := ⟨i - 1, by omega⟩
      rcases hleft with h0 | hsp
      · omega
      · refine ⟨t.take j, ?_⟩
        rw [List.take_succ]
        simp only [Nat.add_sub_cancel] at hsp
        rw [hsp]
        rfl
  · intro hle
    have hlen : (t.drop i).length = t.length - i := by simp
    rw [← hr] at hlen
    simp only [List.length_append] at hlen
    have : r.length = 0 := by omega
    exact List.eq_nil_of_length_eq_zero this
  · intro hlt
    rcases hright with h0 | hsp
    · omega
    · have ht' : t = (t.take i ++ tok) ++ r := by
        conv_lhs => rw [← List.take_append_drop i t]
        rw [← hr]
        simp
      have hlen : (t.take i ++ tok).length = i + tok.length := by
        simp [List.length_take, Nat.min_eq_left hi]
      rw [ht'] at hsp
      rw [List.getElem?_append_right (by omega)] at hsp
      rw [hlen] at hsp
      simp only [Nat.sub_self] at hsp
      rcases r with _ | ⟨c, r'⟩
      · simp at hsp
      · simp at hsp
        exact ⟨r', by rw [hsp]⟩

/-- The disjunction actually tested by `scoreText` is exactly the amended
whole-word occurrence: bounded on both sides by a space or the string
boundary, with at least one of the two bounds being a real space. -/
lemma code3_iff_padded (tok t : List Char) :
    ((' ' :: tok ++ [' ']) <:+: t ∨ (tok ++ [' ']) <+: t ∨ (' ' :: tok) <:+ t) ↔
      wholeWordPadded tok t = true := by
  constructor
  · intro h
    unfold wholeWordPadded
    rw [List.any_eq_true]
    rcases h with ⟨s, u, hsu⟩ | ⟨r, hr⟩ | ⟨s, hs⟩
    · refine ⟨(s ++ [' ']).length, ?_, ?_⟩
      · rw [List.mem_range, ← hsu]
        simp only [List.length_append, List.length_cons, List.length_nil]
        omega
      · have hw := wordAt_of_append tok t (s ++ [' ']) (' ' :: u)
          (by rw [← hsu]; simp) (Or.inr ⟨s, rfl⟩) (Or.inr ⟨u, rfl⟩)
        rw [hw]
        simp
    · refine ⟨0, ?_, ?_⟩
      · simp [List.mem_range]
      · have hw := wordAt_of_append tok t [] (' ' :: r)
          (by rw [← hr]; simp) (Or.inl rfl) (Or.inr ⟨r, rfl⟩)
        simp only [List.length_nil] at hw
        rw [hw]
        have hlt : tok.length < t.length := by
          rw [← hr]
          simp only [List.length_append, List.length_cons, List.length_nil]
          omega
        simp only [Bool.true_and, Bool.not_eq_true', Bool.and_eq_false_iff,
          decide_eq_false_iff_not]
        right
        omega
    · refine ⟨(s ++ [' ']).length, ?_, ?_⟩
      · rw [List.mem_range, ← hs]
        simp only [List.cons_append, List.length_append, List.length_cons, List.length_nil]
        omega
      · have hw := wordAt_of_append tok t (s ++ [' ']) []
          (by rw [← hs]; simp) (Or.inr ⟨s, rfl⟩) (Or.inl rfl)
        rw [hw]
        simp
  · intro h
    unfold wholeWordPadded at h
    rw [List.any_eq_true] at h
    obtain ⟨i, hmem, hpred⟩ := h
    rw [List.mem_range] at hmem
    simp only [Bool.and_eq_true, Bool.not_eq_eq_eq_not, Bool.not_true,
      Bool.and_eq_false_iff, decide_eq_false_iff_not] at hpred
    obtain ⟨hw, hne⟩ := hpred
    obtain ⟨p, q, ht, hp, hleft, hq1, hq2⟩ := wordAt_elim tok t i (by omega) hw
    by_cases hend : t.length ≤ i + tok.length
    · -- the occurrence reaches the end of the string: suffix case
      have hq := hq1 hend
      subst hq
      have hi0 : i ≠ 0 := by
        rcases hne with h0 | h0
        · exact h0
        · exact absurd hend h0
      rcases hleft with rfl | ⟨u, rfl⟩
      · simp at hp; omega
      · refine Or.inr (Or.inr ⟨u, ?_⟩)
        rw [ht]
        simp
    · obtain ⟨u, hq⟩ := hq2 hend
      subst hq
      rcases hleft with rfl | ⟨v, rfl⟩
      · refine Or.inr (Or.inl ⟨u, ?_⟩)
        rw [ht]
        simp
      · refine Or.inl ⟨v, u, ?_⟩
        rw [ht]
        simp

lemma tokWeightCode_eq_padded (t tok : List Char) :
    tokWeightCode t tok = tokWeightPadded t tok := by
  unfold tokWeightCode tokWeightPadded
  rcases eq_or_ne tok [] with rfl | htok
  · simp
  · simp only [htok, if_false]
    by_cases h : wholeWordPadded tok t = true
    · rw [if_pos ((code3_iff_padded tok t).mpr h), if_pos h]
    · rw [if_neg (fun hc => h ((code3_iff_padded tok t).mp hc)), if_neg h]

lemma scoreText_eq_scoreAmended (qTokens : List (List Char)) (text : List Char) :
    scoreText qTokens text = scoreAmended qTokens text := by
  rw [scoreText_eq_sum]
  unfold scoreAmended
  congr 1
  exact List.map_congr_left fun tok _ => tokWeightCode_eq_padded (normalize text) tok

/- ===================== lemmas about the retriever ========================== -/

lemma insertDesc_perm (x : RU) (l : List RU) : List.Perm (insertDesc x l) (x :: l) := by
  induction l with
  | nil => exact List.Perm.refl _
  | cons y ys ih =>
    unfold insertDesc
    split_ifs
    · exact (ih.cons y).trans (List.Perm.swap x y ys)
    · exact List.Perm.refl _

lemma sortByScoreDesc_perm (l : List RU) : List.Perm (sortByScoreDesc l) l := by
  induction l with
  | nil => exact List.Perm.refl _
  | cons x xs ih =>
    unfold sortByScoreDesc
    exact (insertDesc_perm x (sortByScoreDesc xs)).trans (ih.cons x)

lemma mem_mergedFor (q : List Char) (k : Nat) (topic : List Char) (pdf : List PdfChunk)
    (u : RU) (hu : u ∈ mergedFor q k topic pdf) :
    u ∈ kbRankedFor q topic ∨ u ∈ pdfRankedFor q pdf := by
  unfold mergedFor at hu
  have hmem :=
    (sortByScoreDesc_perm (kbRankedFor q topic ++ pdfRankedFor q pdf)).mem_iff.mp
      (List.take_subset _ _ hu)
  exact List.mem_append.mp hmem

/-- Every unit of a `topK` result is a scored KB unit from the topic pool, a
scored PDF unit, or one of the three concrete fallback overview units. -/
lemma topK_mem_cases (q : List Char) (k : Nat) (topic : List Char) (pdf : List PdfChunk)
    (u : RU) (hu : u ∈ topK q k topic pdf) :
    (∃ d ∈ kbPoolFor topic, u = kbRU (TOK q) d ∧ 0 < u.s) ∨
    (∃ ch ∈ pdf, u = pdfRU (TOK q) ch ∧ 0 < u.s) ∨
    ((topic = str "aavss" ∧ ∃ d ∈ KB.docs, d.id = str "aavss-overview" ∧ u = fallbackRU d) ∨
     (topic = str "sldataset" ∧ ∃ d ∈ KB.docs, d.id = str "sld-overview" ∧ u = fallbackRU d) ∨
     (topic = str "about" ∧ ∃ d ∈ KB.docs, d.id = str "about-owner" ∧ u = fallbackRU d)) := by
  have hmerged : u ∈ mergedFor q k topic pdf →
      (∃ d ∈ kbPoolFor topic, u = kbRU (TOK q) d ∧ 0 < u.s) ∨
      (∃ ch ∈ pdf, u = pdfRU (TOK q) ch ∧ 0 < u.s) := by
    intro hm
    rcases mem_mergedFor q k topic pdf u hm with h | h
    · left
      unfold kbRankedFor at h
      obtain ⟨hmem, hpos⟩ := List.mem_filter.mp h
      obtain ⟨d, hd, rfl⟩ := List.mem_map.mp hmem
      exact ⟨d, hd, rfl, of_decide_eq_true hpos⟩
    · right
      unfold pdfRankedFor at h
      obtain ⟨hmem, hpos⟩ := List.mem_filter.mp h
      obtain ⟨ch, hch, rfl⟩ := List.mem_map.mp hmem
      exact ⟨ch, hch, rfl, of_decide_eq_true hpos⟩
  unfold topK at hu
  split_ifs at hu with h0 h1 h2 h3
  · obtain ⟨d, hd, rfl⟩ := List.mem_map.mp hu
    exact Or.inr (Or.inr (Or.inl ⟨h1, d, List.mem_of_mem_filter hd,
      of_decide_eq_true (List.mem_filter.mp hd).2, rfl⟩))
  · obtain ⟨d, hd, rfl⟩ := List.mem_map.mp hu
    exact Or.inr (Or.inr (Or.inr (Or.inl ⟨h2, d, List.mem_of_mem_filter hd,
      of_decide_eq_true (List.mem_filter.mp hd).2, rfl⟩)))
  · obtain ⟨d, hd, rfl⟩ := List.mem_map.mp hu
    exact Or.inr (Or.inr (Or.inr (Or.inr ⟨h3, d, List.mem_of_mem_filter hd,
      of_decide_eq_true (List.mem_filter.mp hd).2, rfl⟩)))
  · rcases hmerged hu with h | h
    · exact Or.inl h
    · exact Or.inr (Or.inl h)
  · rcases hmerged hu with h | h
    · exact Or.inl h
    · exact Or.inr (Or.inl h)

/-- Every selected unit has score at least 1 (positive-score filter upstream,
`s := 1` on the fallback path). -/
lemma topK_score_pos (q : List Char) (k : Nat) (topic : List Char) (pdf : List PdfChunk) :
    ∀ u ∈ topK q k topic pdf, 1 ≤ u.s := by
  intro u hu
  rcases topK_mem_cases q k topic pdf u hu with ⟨d, _, _, hpos⟩ | ⟨ch, _, _, hpos⟩ |
    ⟨_, d, _, _, rfl⟩ | ⟨_, d, _, _, rfl⟩ | ⟨_, d, _, _, rfl⟩
  · omega
  · omega
  · exact le_refl 1
  · exact le_refl 1
  · exact le_refl 1

/-- For the two mutually exclusive domains the KB pool only contains docs
tagged with the topic or the wildcard. -/
lemma kbPoolFor_topic (topic : List Char) (h : topic = str "aavss" ∨ topic = str "sldataset")
    (d : KbDoc) (hd : d ∈ kbPoolFor topic) : d.topic = topic ∨ d.topic = str "all" := by
  unfold kbPoolFor at hd
  rcases h with rfl | rfl
  · rw [if_neg (by decide)] at hd
    have hp := (List.mem_filter.mp hd).2
    simp only [decide_eq_true_eq] at hp
    rcases hp with h | h | h
    · exact Or.inl h
    · exact Or.inr h
    · exact absurd h (by decide)
  · rw [if_neg (by decide)] at hd
    have hp := (List.mem_filter.mp hd).2
    simp only [decide_eq_true_eq] at hp
    rcases hp with h | h | h
    · exact Or.inl h
    · exact Or.inr h
    · exact absurd h (by decide)

/- ===================== lemmas for the confidence ratio ===================== -/

lemma foldl_add_div (M : Nat) (l : List RU) :
    ∀ a : ℚ, l.foldl (fun acc r => acc + (r.s : ℚ) / (M : ℚ)) a
      = a + (l.map fun r => (r.s : ℚ) / (M : ℚ)).sum := by
  induction l with
  | nil => intro a; simp
  | cons x xs ih =>
    intro a
    simp only [List.foldl_cons, List.map_cons, List.sum_cons, ih]
    ring

lemma mem_le_foldr_max (l : List Nat) (b : Nat) : ∀ x ∈ l, x ≤ l.foldr Nat.max b := by
  induction l with
  | nil => simp
  | cons y ys ih =>
    intro x hx
    simp only [List.foldr_cons]
    rcases List.mem_cons.mp hx with rfl | hx
    · exact Nat.le_max_left _ _
    · exact le_trans (ih x hx) (Nat.le_max_right _ _)

lemma foldr_max_one (l : List Nat) : l.foldr Nat.max 1 = Nat.max (l.foldr Nat.max 0) 1 := by
  induction l with
  | nil => simp
  | cons y ys ih =>
    simp only [List.foldr_cons, ih]
    exact (Nat.max_assoc y _ 1).symm

lemma sum_le_length (l : List ℚ) (h : ∀ x ∈ l, x ≤ 1) : l.sum ≤ (l.length : ℚ) := by
  induction l with
  | nil => simp
  | cons x xs ih =>
    simp only [List.sum_cons, List.length_cons]
    push_cast
    have hx := h x (by simp)
    have hxs := ih fun y hy => h y (by simp [hy])
    linarith

lemma sum_eq_length_iff (l : List ℚ) (h : ∀ x ∈ l, x ≤ 1) :
    l.sum = (l.length : ℚ) ↔ ∀ x ∈ l, x = 1 := by
  induction l with
  | nil => simp
  | cons x xs ih =>
    simp only [List.sum_cons, List.length_cons, List.mem_cons]
    have hx := h x (by simp)
    have hxs := sum_le_length xs fun y hy => h y (by simp [hy])
    have ihs := ih fun y hy => h y (by simp [hy])
    constructor
    · intro heq
      push_cast at heq
      have hx1 : x = 1 := by linarith
      have hs : xs.sum = (xs.length : ℚ) := by linarith
      intro y hy
      rcases hy with rfl | hy
      · exact hx1
      · exact ihs.mp hs y hy
    · intro hall
      have hx1 : x = 1 := hall x (Or.inl rfl)
      have hs : xs.sum = (xs.length : ℚ) := ihs.mpr fun y hy => hall y (Or.inr hy)
      rw [hx1, hs]
      push_cast
      ring

/- ===================== lemmas for the answer polish ======================== -/

lemma emitN_cases (n : Nat) : emitN n = [] ∨ emitN n = ['\n'] ∨ emitN n = ['\n', '\n'] := by
  unfold emitN
  split_ifs with h
  · right; right; rfl
  · rcases n with _ | _ | _ | n
    · left; rfl
    · right; left; rfl
    · right; right; rfl
    · omega

lemma hasTriple_cons (c : Char) (l : List Char) (hc : c ≠ '\n') :
    hasTriple (c :: l) = hasTriple l := by
  match l with
  | [] => rfl
  | [b] => rfl
  | b :: d :: rest => simp [hasTriple, hc]

lemma hasTriple_false_cons (x : Char) (l : List Char) (h : hasTriple (x :: l) = false) :
    hasTriple l = false := by
  match l with
  | [] => rfl
  | [b] => rfl
  | b :: d :: rest =>
    unfold hasTriple at h
    exact (Bool.or_eq_false_iff.mp h).2

lemma hasTriple_false_append (s t : List Char) (h : hasTriple (s ++ t) = false) :
    hasTriple t = false := by
  induction s with
  | nil => simpa using h
  | cons a s' ih => exact ih (hasTriple_false_cons a _ (by simpa using h))

lemma hasTriple_nl_cons (c : Char) (t : List Char) (hc : c ≠ '\n') :
    hasTriple ('\n' :: c :: t) = hasTriple (c :: t) := by
  match t with
  | [] => rfl
  | d :: rest => simp [hasTriple, hc]

lemma hasTriple_emitN_cons (n : Nat) (c : Char) (t : List Char) (hc : c ≠ '\n') :
    hasTriple (emitN n ++ c :: t) = hasTriple (c :: t) := by
  rcases emitN_cases n with h | h | h <;> rw [h]
  · rfl
  · rw [List.singleton_append, hasTriple_nl_cons c t hc]
  · show hasTriple ('\n' :: '\n' :: c :: t) = hasTriple (c :: t)
    rw [show hasTriple ('\n' :: '\n' :: c :: t) = hasTriple ('\n' :: c :: t) by
          simp [hasTriple, hc],
        hasTriple_nl_cons c t hc]

lemma hasTriple_collapseGo (l : List Char) : ∀ n, hasTriple (collapseGo l n) = false := by
  induction l with
  | nil =>
    intro n
    show hasTriple (emitN n) = false
    rcases emitN_cases n with h | h | h <;> rw [h] <;> rfl
  | cons c cs ih =>
    intro n
    unfold collapseGo
    split_ifs with hc
    · exact ih (n + 1)
    · rw [hasTriple_emitN_cons n c _ hc, hasTriple_cons c _ hc]
      exact ih 0

lemma collapseGo_self (l : List Char) : ∀ n, n ≤ 2 →
    hasTriple (List.replicate n '\n' ++ l) = false →
    collapseGo l n = List.replicate n '\n' ++ l := by
  induction l with
  | nil =>
    intro n hn _
    show emitN n = _
    rw [List.append_nil]
    unfold emitN
    rw [if_neg (by omega)]
  | cons c cs ih =>
    intro n hn h
    unfold collapseGo
    split_ifs with hc
    · subst hc
      have hrep : List.replicate n '\n' ++ '\n' :: cs = List.replicate (n + 1) '\n' ++ cs := by
        rw [List.replicate_succ']
        simp
      have hn' : n + 1 ≤ 2 := by
        rcases Nat.lt_or_ge n 2 with h2 | h2
        · omega
        · exfalso
          have hn2 : n = 2 := by omega
          subst hn2
          simp [List.replicate, hasTriple] at h
      rw [ih (n + 1) hn' (by rw [← hrep]; exact h), hrep]
    · have hcs : hasTriple cs = false :=
        hasTriple_false_cons c cs (hasTriple_false_append (List.replicate n '\n') (c :: cs) h)
      rw [ih 0 (by omega) (by simpa using hcs)]
      unfold emitN
      rw [if_neg (by omega)]
      simp

lemma collapseNewlines_self (l : List Char) (h : hasTriple l = false) :
    collapseNewlines l = l := by
  have hgo := collapseGo_self l 0 (by omega) (by simpa using h)
  simpa [collapseNewlines] using hgo

lemma dropWhile_head_not (p : Char → Bool) (l : List Char) :
    ∀ c ∈ (l.dropWhile p).head?, p c = false := by
  induction l with
  | nil => simp
  | cons a l' ih =>
    rw [List.dropWhile_cons]
    split_ifs with h
    · exact ih
    · intro c hc
      simp only [List.head?_cons, Option.mem_def, Option.some.injEq] at hc
      subst hc
      simpa using h

lemma dropWhile_eq_self_of_head (p : Char → Bool) (l : List Char)
    (h : ∀ c ∈ l.head?, p c = false) : l.dropWhile p = l := by
  match l with
  | [] => rfl
  | c :: t =>
    rw [List.dropWhile_cons, if_neg]
    simp [h c (by simp)]

lemma jsTrim_headOk (l : List Char) : headCharOk (jsTrim l) := by
  intro c hc
  unfold jsTrim at hc
  rw [List.head?_reverse] at hc
  obtain ⟨s, hs⟩ := List.dropWhile_suffix (l := (l.dropWhile isJsSpace).reverse) isJsSpace
  have hw : ((l.dropWhile isJsSpace).reverse).getLast? = some c := by
    rw [← hs, List.getLast?_append]
    rw [Option.mem_def] at hc
    rw [hc]
    rfl
  rw [List.getLast?_reverse] at hw
  exact dropWhile_head_not isJsSpace l c hw

lemma jsTrim_lastOk (l : List Char) : lastCharOk (jsTrim l) := by
  intro c hc
  unfold jsTrim at hc
  rw [List.getLast?_reverse] at hc
  exact dropWhile_head_not isJsSpace _ c hc

lemma jsTrim_eq_self (l : List Char) (h1 : headCharOk l) (h2 : lastCharOk l) :
    jsTrim l = l := by
  unfold jsTrim
  rw [dropWhile_eq_self_of_head _ l h1]
  rw [dropWhile_eq_self_of_head _ l.reverse
    (by intro c hc; rw [List.head?_reverse] at hc; exact h2 c hc)]
  exact List.reverse_reverse l

lemma emitN_zero : emitN 0 = [] := rfl

lemma collapseNewlines_headOk (l : List Char) (h : headCharOk l) :
    headCharOk (collapseNewlines l) := by
  match l with
  | [] => intro c hc; simp [collapseNewlines, collapseGo, emitN_zero] at hc
  | a :: t =>
    have ha : isJsSpace a = false := h a (by simp)
    have han : a ≠ '\n' := by
      intro hEq
      rw [hEq] at ha
      simp [isJsSpace] at ha
    intro c hc
    unfold collapseNewlines collapseGo at hc
    rw [if_neg han, emitN_zero, List.nil_append] at hc
    simp only [List.head?_cons, Option.mem_def, Option.some.injEq] at hc
    rw [← hc]
    exact ha

lemma collapseGo_concat (c : Char) (hc : isJsSpace c = false) (l : List Char) :
    ∀ n, ∃ t, collapseGo (l ++ [c]) n = t ++ [c] := by
  have hcn : c ≠ '\n' := by
    intro hEq
    rw [hEq] at hc
    simp [isJsSpace] at hc
  induction l with
  | nil =>
    intro n
    refine ⟨emitN n, ?_⟩
    simp [collapseGo, hcn, emitN_zero]
  | cons a l' ih =>
    intro n
    rw [List.cons_append]
    unfold collapseGo
    split_ifs with ha
    · exact ih (n + 1)
    · obtain ⟨t, ht⟩ := ih 0
      refine ⟨emitN n ++ a :: t, ?_⟩
      rw [ht]
      simp

lemma collapseNewlines_lastOk (l : List Char) (h : lastCharOk l) :
    lastCharOk (collapseNewlines l) := by
  rcases eq_or_ne l [] with rfl | hne
  · intro c hc
    simp [collapseNewlines, collapseGo, emitN_zero] at hc
  · have hc0 : l.getLast? = some (l.getLast hne) := List.getLast?_eq_getLast l hne
    have hnc : isJsSpace (l.getLast hne) = false := h _ (by rw [hc0]; rfl)
    have hdecomp : l = l.dropLast ++ [l.getLast hne] :=
      (List.dropLast_append_getLast hne).symm
    obtain ⟨t, ht⟩ := collapseGo_concat (l.getLast hne) hnc l.dropLast 0
    intro c hcmem
    unfold collapseNewlines at hcmem
    rw [hdecomp] at hcmem
    rw [ht, List.getLast?_concat] at hcmem
    simp only [Option.mem_def, Option.some.injEq] at hcmem
    rw [← hcmem]
    exact hnc

lemma finalizeAnswer_idem (x : List Char) :
    finalizeAnswer (finalizeAnswer x) = finalizeAnswer x := by
  unfold finalizeAnswer
  have h1 : headCharOk (collapseNewlines (jsTrim x)) :=
    collapseNewlines_headOk _ (jsTrim_headOk x)
  have h2 : lastCharOk (collapseNewlines (jsTrim x)) :=
    collapseNewlines_lastOk _ (jsTrim_lastOk x)
  rw [jsTrim_eq_self _ h1 h2,
    collapseNewlines_self _ (by simpa [collapseNewlines] using hasTriple_collapseGo (jsTrim x) 0)]

/- ===================== lemmas for the provider cascade ===================== -/

lemma runCascade_skip (sys usr : List Char) (p : Provider)
    (hp : p.fn sys usr = none ∨ p.fn sys usr = some []) (ps : List Provider) :
    runCascade sys usr (p :: ps) =
      ⟨(runCascade sys usr ps).answer, (runCascade sys usr ps).provider,
        attemptOf sys usr p :: (runCascade sys usr ps).attempts⟩ := by
  rcases hp with h | h <;> simp [runCascade, h]

lemma runCascade_first_success (sys usr : List Char) (ps₁ : List Provider) (p : Provider)
    (ps₂ : List Provider) (ans : List Char)
    (hfail : ∀ q ∈ ps₁, q.fn sys usr = none ∨ q.fn sys usr = some [])
    (hp : p.fn sys usr = some ans) (hne : ans ≠ []) :
    runCascade sys usr (ps₁ ++ p :: ps₂) =
      ⟨ans, p.name, ps₁.map (attemptOf sys usr) ++ [attemptOf sys usr p]⟩ := by
  induction ps₁ with
  | nil => simp [runCascade, hp, hne]
  | cons q qs ih =>
    rw [List.cons_append, runCascade_skip sys usr q (hfail q (by simp)) _,
      ih fun r hr => hfail r (by simp [hr])]
    simp

lemma runCascade_timeouts (sys usr : List Char) (ps : List Provider) :
    ∀ a ∈ (runCascade sys usr ps).attempts, a.timeoutMs = 30000 := by
  induction ps with
  | nil => simp [runCascade]
  | cons p ps ih =>
    intro a ha
    rcases hfn : p.fn sys usr with _ | ans
    · rw [runCascade_skip sys usr p (Or.inl hfn) ps] at ha
      simp only [List.mem_cons] at ha
      rcases ha with rfl | ha
      · rfl
      · exact ih a ha
    · by_cases hans : ans = []
      · subst hans
        rw [runCascade_skip sys usr p (Or.inr hfn) ps] at ha
        simp only [List.mem_cons] at ha
        rcases ha with rfl | ha
        · rfl
        · exact ih a ha
      · have hrun : runCascade sys usr (p :: ps) = ⟨ans, p.name, [attemptOf sys usr p]⟩ := by
          simp [runCascade, hfn, hans]
        rw [hrun] at ha
        simp only [List.mem_cons, List.not_mem_nil, or_false] at ha
        subst ha
        rfl

lemma aiAskCascade_fail (ps : List AiProv) (h : ∀ p ∈ ps, p.outcome = none) :
    aiAskCascade ps = ⟨502, [], [], str "No provider available or all providers failed."⟩ := by
  induction ps with
  | nil => rfl
  | cons p ps ih =>
    unfold aiAskCascade
    split_ifs with hcfg
    · rw [h p (by simp)]
      exact ih fun r hr => h r (by simp [hr])
    · exact ih fun r hr => h r (by simp [hr])

/- ===================== the confidence characterisation ===================== -/

lemma confidence_spec (q topic : List Char) (pdf : List PdfChunk)
    (hne : topK q 8 topic pdf ≠ []) :
    (buildContext q topic pdf).confidence =
      ((topK q 8 topic pdf).map fun r =>
        (r.s : ℚ) / ((((topK q 8 topic pdf).map RU.s).foldr Nat.max 0 : Nat) : ℚ)).sum /
        ((topK q 8 topic pdf).length : ℚ) ∧
    0 ≤ (buildContext q topic pdf).confidence ∧
    (buildContext q topic pdf).confidence ≤ 1 ∧
    ((buildContext q topic pdf).confidence = 1 ↔
      ∀ u ∈ topK q 8 topic pdf, u.s = ((topK q 8 topic pdf).map RU.s).foldr Nat.max 0) := by
  set ranked := topK q 8 topic pdf with hrdef
  set M0 : Nat := (ranked.map RU.s).foldr Nat.max 0 with hM0def
  have hscore : ∀ u ∈ ranked, 1 ≤ u.s := topK_score_pos q 8 topic pdf
  obtain ⟨u0, hu0⟩ := List.exists_mem_of_ne_nil ranked hne
  have hM1 : 1 ≤ M0 :=
    le_trans (hscore u0 hu0) (mem_le_foldr_max _ 0 u0.s (List.mem_map_of_mem RU.s hu0))
  have hMQ : (0 : ℚ) < (M0 : ℚ) := by exact_mod_cast hM1
  have hmaxU : maxUnitFor ranked = M0 := by
    unfold maxUnitFor
    rw [foldr_max_one]
    exact Nat.max_eq_left hM1
  have hlen0 : ranked.length ≠ 0 := fun h => hne (List.eq_nil_of_length_eq_zero h)
  have hlenQ : (0 : ℚ) < (ranked.length : ℚ) := by
    exact_mod_cast Nat.pos_of_ne_zero hlen0
  have hterm : ∀ x ∈ ranked.map fun r => (r.s : ℚ) / (M0 : ℚ), x ≤ 1 := by
    intro x hx
    obtain ⟨r, hr, rfl⟩ := List.mem_map.mp hx
    rw [div_le_one hMQ]
    exact_mod_cast mem_le_foldr_max (ranked.map RU.s) 0 r.s (List.mem_map_of_mem RU.s hr)
  have hsum_le := sum_le_length _ hterm
  rw [List.length_map] at hsum_le
  have hconf : (buildContext q topic pdf).confidence =
      (ranked.map fun r => (r.s : ℚ) / (M0 : ℚ)).sum / (ranked.length : ℚ) := by
    show confidenceFor ranked = _
    unfold confidenceFor
    rw [if_neg hlen0, hmaxU, foldl_add_div M0 ranked 0, zero_add]
    refine min_eq_right ?_
    rw [div_le_one hlenQ]
    exact hsum_le
  refine ⟨hconf, ?_, ?_, ?_⟩
  · rw [hconf]
    refine div_nonneg (List.sum_nonneg ?_) (le_of_lt hlenQ)
    intro x hx
    obtain ⟨r, hr, rfl⟩ := List.mem_map.mp hx
    exact div_nonneg (by positivity) (le_of_lt hMQ)
  · rw [hconf, div_le_one hlenQ]
    exact hsum_le
  · rw [hconf, div_eq_one_iff_eq (ne_of_gt hlenQ)]
    constructor
    · intro h
      have hall := (sum_eq_length_iff _ hterm).mp (by rw [h, List.length_map])
      intro u hu
      have hu1 := hall _ (List.mem_map_of_mem _ hu)
      rw [div_eq_one_iff_eq (ne_of_gt hMQ)] at hu1
      exact_mod_cast hu1
    · intro hall
      have h1 : ∀ x ∈ ranked.map fun r => (r.s : ℚ) / (M0 : ℚ), x = 1 := by
        intro x hx
        obtain ⟨r, hr, rfl⟩ := List.mem_map.mp hx
        rw [div_eq_one_iff_eq (ne_of_gt hMQ)]
        exact_mod_cast hall r hr
      have h2 := (sum_eq_length_iff _ hterm).mpr h1
      rw [h2, List.length_map]

/- ============================ claim theorems =============================== -/

set_option maxRecDepth 1000000

/-- C1: counterexample.  For the requested topic `about` (a topic other than
`all`), retrieval of the question `annotations` returns exactly the KB unit
`sld-overview`, whose tag in the KB is `sldataset` — a foreign domain's
exclusive tag, neither `about` nor the wildcard `all`.  (The pool filter
`d.topic === topic || d.topic === "all" || topic === "about"` admits every doc
when the topic is `about`.) -/
theorem C1_counterexample :
    (topK (str "annotations") 8 (str "about") []).map RU.id = [str "sld-overview"] ∧
    (∃ d ∈ KB.docs, d.id = str "sld-overview" ∧ d.topic = str "sldataset") ∧
    (str "sldataset" : List Char) ≠ str "about" ∧ (str "sldataset" : List Char) ≠ str "all" := by
  refine ⟨by decide, by decide, by decide, by decide⟩

/-- C1 (amended): for the requested topics `aavss` and `sldataset`, every
KB-typed unit of the retrieval bundle comes from a KB doc tagged with the
requested topic or with the wildcard `all`.  (For topic `about` every KB doc
is admitted whatever its tag, and PDF chunks are never topic-filtered.) -/
theorem C1_topic_exclusivity_amended (q : List Char) (pdf : List PdfChunk) (topic : List Char)
    (htop : topic = str "aavss" ∨ topic = str "sldataset")
    (u : RU) (hu : u ∈ topK q 8 topic pdf) (hkb : u.type = str "kb") :
    ∃ d ∈ KB.docs, d.id = u.id ∧ (d.topic = topic ∨ d.topic = str "all") := by
  rcases topK_mem_cases q 8 topic pdf u hu with ⟨d, hd, rfl, _⟩ | ⟨ch, _, rfl, _⟩ |
    ⟨htop2, d, hd, hid, rfl⟩ | ⟨htop2, d, hd, hid, rfl⟩ | ⟨htop2, d, hd, hid, rfl⟩
  · refine ⟨d, ?_, rfl, kbPoolFor_topic topic htop d hd⟩
    unfold kbPoolFor at hd
    split_ifs at hd
    · exact hd
    · exact List.mem_of_mem_filter hd
  · rw [show (pdfRU (TOK q) ch).type = str "pdf" from rfl] at hkb
    exact absurd hkb (by decide)
  · subst htop2
    refine ⟨d, hd, rfl, Or.inl ?_⟩
    have hdt : ∀ d ∈ KB.docs, d.id = str "aavss-overview" → d.topic = str "aavss" := by decide
    exact hdt d hd hid
  · subst htop2
    refine ⟨d, hd, rfl, Or.inl ?_⟩
    have hdt : ∀ d ∈ KB.docs, d.id = str "sld-overview" → d.topic = str "sldataset" := by decide
    exact hdt d hd hid
  · rcases htop with rfl | rfl <;> exact absurd htop2 (by decide)

/-- C1: witness.  Topic `aavss`, a query with no lexical overlap (so the
fallback unit is returned); the only unit is KB-typed and its KB doc is tagged
`aavss`. -/
theorem C1_witness :
    ((str "aavss" : List Char) = str "aavss" ∨ (str "aavss" : List Char) = str "sldataset") ∧
    (topK (str "xqzv") 8 (str "aavss") []).headD ⟨[], [], [], [], none, none, none, 0⟩ ∈
      topK (str "xqzv") 8 (str "aavss") [] ∧
    ((topK (str "xqzv") 8 (str "aavss") []).headD ⟨[], [], [], [], none, none, none, 0⟩).type =
      str "kb" ∧
    ∃ d ∈ KB.docs,
      d.id = ((topK (str "xqzv") 8 (str "aavss") []).headD
        ⟨[], [], [], [], none, none, none, 0⟩).id ∧
      (d.topic = str "aavss" ∨ d.topic = str "all") :=
  ⟨Or.inl rfl, by decide, by decide,
   C1_topic_exclusivity_amended (str "xqzv") [] (str "aavss") (Or.inl rfl) _ (by decide)
     (by decide)⟩

/-- C2: counterexample.  For the unscoped topic `all` and a question with no
lexical overlap with any unit, retrieval returns the empty bundle: part_008
has no union-of-overviews fallback for topic `all`, contradicting the claimed
non-empty-context guarantee for every topic. -/
theorem C2_counterexample : topK (str "xqzv") 8 (str "all") [] = [] := by decide

/-- C2 (amended): for the three concrete topics `aavss`, `sldataset` and
`about` the bundle is never empty — when nothing scores above zero the
canonical overview unit of the topic (with score 1) is returned; for topic
`all` the bundle can be empty (see the counterexample), the downstream
clarification gate handling that case. -/
theorem C2_overview_fallback_amended (q : List Char) (pdf : List PdfChunk) (topic : List Char)
    (htop : topic = str "aavss" ∨ topic = str "sldataset" ∨ topic = str "about") :
    topK q 8 topic pdf ≠ [] ∧
    (mergedFor q 8 topic pdf = [] →
      (topK q 8 topic pdf).map RU.id = [canonicalId topic] ∧
      (topK q 8 topic pdf).map RU.s = [1]) := by
  rcases htop with rfl | rfl | rfl
  · constructor
    · by_cases hm : mergedFor q 8 (str "aavss") pdf = []
      · unfold topK
        rw [if_pos hm, if_pos rfl]
        decide
      · unfold topK
        rw [if_neg hm]
        exact hm
    · intro hm
      unfold topK
      rw [if_pos hm, if_pos rfl]
      exact ⟨by decide, by decide⟩
  · constructor
    · by_cases hm : mergedFor q 8 (str "sldataset") pdf = []
      · unfold topK
        rw [if_pos hm, if_neg (by decide), if_pos rfl]
        decide
      · unfold topK
        rw [if_neg hm]
        exact hm
    · intro hm
      unfold topK
      rw [if_pos hm, if_neg (by decide), if_pos rfl]
      exact ⟨by decide, by decide⟩
  · constructor
    · by_cases hm : mergedFor q 8 (str "about") pdf = []
      · unfold topK
        rw [if_pos hm, if_neg (by decide), if_neg (by decide), if_pos rfl]
        decide
      · unfold topK
        rw [if_neg hm]
        exact hm
    · intro hm
      unfold topK
      rw [if_pos hm, if_neg (by decide), if_neg (by decide), if_pos rfl]
      exact ⟨by decide, by decide⟩

/-- C2: witness.  Topic `aavss` with a no-overlap query: the bundle is the
canonical `aavss-overview` unit with score 1. -/
theorem C2_witness :
    ((str "aavss" : List Char) = str "aavss" ∨ (str "aavss" : List Char) = str "sldataset" ∨
      (str "aavss" : List Char) = str "about") ∧
    topK (str "xqzv") 8 (str "aavss") [] ≠ [] ∧
    (topK (str "xqzv") 8 (str "aavss") []).map RU.id = [canonicalId (str "aavss")] ∧
    (topK (str "xqzv") 8 (str "aavss") []).map RU.s = [1] :=
  ⟨Or.inl rfl,
   (C2_overview_fallback_amended (str "xqzv") [] (str "aavss") (Or.inl rfl)).1,
   ((C2_overview_fallback_amended (str "xqzv") [] (str "aavss") (Or.inl rfl)).2 (by decide)).1,
   ((C2_overview_fallback_amended (str "xqzv") [] (str "aavss") (Or.inl rfl)).2 (by decide)).2⟩

/-- C3: counterexample.  A token equal to the entire normalized text is a
whole-word occurrence bounded by string start and string end, so the claim
assigns it +3; `scoreText` only tests space-padded variants and awards the
substring point instead: `scoreText ["lane"] "lane" = 1` where the claimed
formula gives 3. -/
theorem C3_counterexample :
    scoreText [str "lane"] (str "lane") = 1 ∧ scoreClaim [str "lane"] (str "lane") = 3 := by
  exact ⟨by decide, by decide⟩

/-- C3 (amended): the lexical score is the sum over non-empty query tokens of
+3 for a whole-word occurrence bounded by spaces or the string start/end with
at least one bounding space present (a token equal to the entire text scores
only +1), else +1 for a substring occurrence; consequently the whole-word
example strictly outranks the substring one. -/
theorem C3_lexical_score_amended :
    (∀ (qTokens : List (List Char)) (text : List Char),
      scoreText qTokens text = scoreAmended qTokens text) ∧
    scoreText [str "lane"] (str "the lane markings") >
      scoreText [str "lane"] (str "a landmark nearby") :=
  ⟨scoreText_eq_scoreAmended, by decide⟩

/-- C4: counterexample.  A provider that throws: the cascade proceeds, but the
abort timer of the failed attempt is not cleared (the `catch` block of the
source never reaches `t.clear()`), contradicting the claim that the timer is
cleared on an error. -/
theorem C4_counterexample :
    runCascade (str "sys") (str "usr") [⟨str "p1", fun _ _ => none⟩] =
      ⟨[], [], [⟨str "p1", 30000, false⟩]⟩ := rfl

/-- C4 (amended): the cascade invokes providers strictly in the configured
order, each attempt carrying its own independent 30-second timeout, stops at
the first provider returning non-empty text and returns that text with the
provider's name, never invoking later providers; the timer of an attempt is
cleared exactly when the call resolves (also on empty text), and is NOT
cleared when the call throws or times out. -/
theorem C4_cascade_amended (sys usr : List Char) (ps₁ : List Provider) (p : Provider)
    (ps₂ : List Provider) (ans : List Char)
    (hfail : ∀ q ∈ ps₁, q.fn sys usr = none ∨ q.fn sys usr = some [])
    (hp : p.fn sys usr = some ans) (hne : ans ≠ []) :
    runCascade sys usr (ps₁ ++ p :: ps₂) =
      ⟨ans, p.name, ps₁.map (attemptOf sys usr) ++ [attemptOf sys usr p]⟩ ∧
    (∀ a ∈ (runCascade sys usr (ps₁ ++ p :: ps₂)).attempts, a.timeoutMs = 30000) ∧
    (∀ q' ∈ ps₁, (attemptOf sys usr q').cleared = (q'.fn sys usr).isSome) ∧
    (attemptOf sys usr p).cleared = true := by
  refine ⟨runCascade_first_success sys usr ps₁ p ps₂ ans hfail hp hne,
    runCascade_timeouts sys usr _, fun q' _ => rfl, ?_⟩
  simp [attemptOf, hp]

/-- C4: witness.  Three providers: the first throws, the second returns
non-empty text, the third would succeed but is never invoked: the result is
the second provider's text and name, and the trace holds exactly the first
two attempts, the thrown one with its timer not cleared. -/
theorem C4_witness :
    (Provider.fn ⟨str "p1", fun _ _ => none⟩ (str "s") (str "u") = none ∨
      Provider.fn ⟨str "p1", fun _ _ => none⟩ (str "s") (str "u") = some []) ∧
    Provider.fn ⟨str "p2", fun _ _ => some (str "ok")⟩ (str "s") (str "u") = some (str "ok") ∧
    str "ok" ≠ ([] : List Char) ∧
    runCascade (str "s") (str "u")
        [⟨str "p1", fun _ _ => none⟩, ⟨str "p2", fun _ _ => some (str "ok")⟩,
         ⟨str "p3", fun _ _ => some (str "never")⟩] =
      ⟨str "ok", str "p2", [⟨str "p1", 30000, false⟩, ⟨str "p2", 30000, true⟩]⟩ :=
  ⟨Or.inl rfl, rfl, by decide,
   by
     have h := (C4_cascade_amended (str "s") (str "u") [⟨str "p1", fun _ _ => none⟩]
       ⟨str "p2", fun _ _ => some (str "ok")⟩ [⟨str "p3", fun _ _ => some (str "never")⟩]
       (str "ok")
       (by
         intro q hq
         simp only [List.mem_singleton] at hq
         subst hq
         exact Or.inl rfl)
       rfl (by decide)).1
     simpa using h⟩

/-- C5: evaluation at the failing input.  All providers throw and the
retrieved bundle consists of one PDF unit whose title is `Radar Guide` and
whose id is `d1`.  The endpoint does return HTTP 200, the `kb-fallback`
sentinel, and the apology-prefixed stitched answer — but the answer renders
the chunk's id (`d1`), not its title: the source splits the provenance string
`pdf:d1|Radar Guide|page=1|https://x` on `|` and takes field 0 into a variable
named `title`, though field 0 is the id.  The claim's "answer contains at
least one retrieved unit's title" fails on every PDF-only bundle. -/
theorem C5_pdf_fallback_bug :
    handler (str "zzcustomtoken")
        [⟨str "d1", str "Radar Guide", str "zzcustomtoken zzcustomtoken data", 1, str "https://x"⟩]
        [⟨str "p1", fun _ _ => none⟩] =
      ⟨200,
       str "I couldn’t reach the AI providers just now. Here’s a concise summary from the knowledge base:\n\n(1) d1 (from PDF)",
       str "kb-fallback", str "all", [str "pdf:d1|Radar Guide|page=1|https://x"],
       [str "Want an overview of AAVSS vs the Dataset?",
        str "Shall I suggest next steps or a quick start?",
        str "Do you want me to search images or generate visuals?"],
       [⟨str "p1", 30000, false⟩], true⟩ ∧
    ¬ (str "Radar Guide") <:+:
      str "I couldn’t reach the AI providers just now. Here’s a concise summary from the knowledge base:\n\n(1) d1 (from PDF)" ∧
    (str "d1 (from PDF)") <:+:
      str "I couldn’t reach the AI providers just now. Here’s a concise summary from the knowledge base:\n\n(1) d1 (from PDF)" := by
  exact ⟨by decide, by decide, by decide⟩

/-- C6: whenever the retrieved context is empty or the confidence is below the
0.15 threshold, the handler answers HTTP 200 with the pick-a-topic
clarification template, empty sources, and an empty provider-attempt trace —
no answer-generation provider is invoked. -/
theorem C6_clarification_gate (q : List Char) (pdf : List PdfChunk) (provs : List Provider)
    (hst : smallTalk q = none) (hping : q ≠ str "__ping__") (hq : q ≠ [])
    (hgate : (buildContext q (detectTopic q) pdf).ctx = [] ∨
      (buildContext q (detectTopic q) pdf).confidence < 3 / 20) :
    handler q pdf provs =
      ⟨200, clarifyAnswer, str "clarify", str "general", [], clarifyFollowups, [], true⟩ := by
  unfold handler
  rw [if_neg hping, if_neg hq]
  simp only [hst]
  rw [if_pos (hgate.elim Or.inl fun h => Or.inr (Or.inr h))]

/-- C6: witness.  The nonsense question `asdkjasd` retrieves nothing (topic
`all`, no overlap), so even with a healthy provider configured the handler
returns the clarification and invokes nothing. -/
theorem C6_witness :
    smallTalk (str "asdkjasd") = none ∧
    (str "asdkjasd" : List Char) ≠ str "__ping__" ∧
    (str "asdkjasd" : List Char) ≠ [] ∧
    (buildContext (str "asdkjasd") (detectTopic (str "asdkjasd")) []).ctx = [] ∧
    handler (str "asdkjasd") [] [⟨str "groq", fun _ _ => some (str "hi")⟩] =
      ⟨200, clarifyAnswer, str "clarify", str "general", [], clarifyFollowups, [], true⟩ :=
  ⟨by decide, by decide, by decide, by decide,
   C6_clarification_gate (str "asdkjasd") [] [⟨str "groq", fun _ _ => some (str "hi")⟩]
     (by decide) (by decide) (by decide) (Or.inl (by decide))⟩

/-- C7: counterexample.  With no provider configured at all (empty provider
list) and a question that passes the gate, the ai-expert endpoint does NOT
answer HTTP 502: it degrades in-band exactly like a runtime provider failure,
returning HTTP 200 with the `kb-fallback` sentinel. -/
theorem C7_counterexample :
    (handler (str "aavss") [] []).status = 200 ∧
    (handler (str "aavss") [] []).provider = str "kb-fallback" := by
  exact ⟨by decide, by decide⟩

/-- C7 (amended): when the filtered provider order is empty the ai-expert
endpoint responds HTTP 200 with the stitched `kb-fallback` answer — the same
graceful in-band degradation as when configured providers fail at runtime.
The separate /api/ai ask endpoint is the one that responds 502 with an
explanatory message, but it does so both when no provider is configured and
when every configured provider throws, so 502 does not distinguish the
operator error from transient runtime failure. -/
theorem C7_no_providers_amended (q : List Char) (pdf : List PdfChunk)
    (hst : smallTalk q = none) (hping : q ≠ str "__ping__") (hq : q ≠ [])
    (hgate : ¬ ((buildContext q (detectTopic q) pdf).ctx = [] ∨
      (buildContext q (detectTopic q) pdf).ctx.length < 20 ∨
      (buildContext q (detectTopic q) pdf).confidence < 3 / 20)) :
    (handler q pdf []).status = 200 ∧
    (handler q pdf []).provider = str "kb-fallback" ∧
    (handler q pdf []).attempts = [] ∧
    aiAskCascade [] = ⟨502, [], [], str "No provider available or all providers failed."⟩ ∧
    (∀ ps : List AiProv, (∀ p ∈ ps, p.outcome = none) →
      aiAskCascade ps =
        ⟨502, [], [], str "No provider available or all providers failed."⟩) := by
  have hres : handler q pdf [] =
      askProviders q (detectTopic q) (buildContext q (detectTopic q) pdf) [] := by
    unfold handler
    rw [if_neg hping, if_neg hq]
    simp only [hst]
    rw [if_neg hgate]
  rw [hres]
  exact ⟨rfl, rfl, rfl, rfl, fun ps h => aiAskCascade_fail ps h⟩

/-- C7: witness.  Question `aavss` passes the gate; with the empty provider
list the response is 200/kb-fallback with no attempts, while the /api/ai ask
cascade answers 502 both unconfigured and with a throwing configured
provider. -/
theorem C7_witness :
    smallTalk (str "aavss") = none ∧
    (str "aavss" : List Char) ≠ str "__ping__" ∧
    (str "aavss" : List Char) ≠ [] ∧
    ¬ ((buildContext (str "aavss") (detectTopic (str "aavss")) []).ctx = [] ∨
      (buildContext (str "aavss") (detectTopic (str "aavss")) []).ctx.length < 20 ∨
      (buildContext (str "aavss") (detectTopic (str "aavss")) []).confidence < 3 / 20) ∧
    (handler (str "aavss") [] []).status = 200 ∧
    (handler (str "aavss") [] []).provider = str "kb-fallback" ∧
    (handler (str "aavss") [] []).attempts = [] ∧
    aiAskCascade [] = ⟨502, [], [], str "No provider available or all providers failed."⟩ ∧
    aiAskCascade [⟨true, str "groq", none⟩] =
      ⟨502, [], [], str "No provider available or all providers failed."⟩ :=
  ⟨by decide, by decide, by decide, by decide,
   (C7_no_providers_amended (str "aavss") [] (by decide) (by decide) (by decide) (by decide)).1,
   (C7_no_providers_amended (str "aavss") [] (by decide) (by decide) (by decide) (by decide)).2.1,
   (C7_no_providers_amended (str "aavss") [] (by decide) (by decide) (by decide)
     (by decide)).2.2.1,
   rfl,
   (C7_no_providers_amended (str "aavss") [] (by decide) (by decide) (by decide)
     (by decide)).2.2.2.2 [⟨true, str "groq", none⟩]
     (by
       intro p hp
       simp only [List.mem_singleton] at hp
       subst hp
       rfl)⟩

/-- C8: for every non-empty retrieved bundle the confidence equals the mean
over the selected units of (score / maximum score among the selected units),
lies in [0, 1], and equals 1 exactly when every selected unit attains the
maximal score. -/
theorem C8_confidence (q topic : List Char) (pdf : List PdfChunk)
    (hne : topK q 8 topic pdf ≠ []) :
    (buildContext q topic pdf).confidence =
      ((topK q 8 topic pdf).map fun r =>
        (r.s : ℚ) / ((((topK q 8 topic pdf).map RU.s).foldr Nat.max 0 : Nat) : ℚ)).sum /
        ((topK q 8 topic pdf).length : ℚ) ∧
    0 ≤ (buildContext q topic pdf).confidence ∧
    (buildContext q topic pdf).confidence ≤ 1 ∧
    ((buildContext q topic pdf).confidence = 1 ↔
      ∀ u ∈ topK q 8 topic pdf, u.s = ((topK q 8 topic pdf).map RU.s).foldr Nat.max 0) :=
  confidence_spec q topic pdf hne

/-- C8: witness.  The question `aavss` with topic `aavss` yields a non-empty
bundle; the confidence facts follow from the theorem at this input. -/
theorem C8_witness :
    topK (str "aavss") 8 (str "aavss") [] ≠ [] ∧
    (buildContext (str "aavss") (str "aavss") []).confidence =
      ((topK (str "aavss") 8 (str "aavss") []).map fun r =>
        (r.s : ℚ) /
          ((((topK (str "aavss") 8 (str "aavss") []).map RU.s).foldr Nat.max 0 : Nat) : ℚ)).sum /
        ((topK (str "aavss") 8 (str "aavss") []).length : ℚ) ∧
    0 ≤ (buildContext (str "aavss") (str "aavss") []).confidence ∧
    (buildContext (str "aavss") (str "aavss") []).confidence ≤ 1 :=
  ⟨by decide,
   (C8_confidence (str "aavss") (str "aavss") [] (by decide)).1,
   (C8_confidence (str "aavss") (str "aavss") [] (by decide)).2.1,
   (C8_confidence (str "aavss") (str "aavss") [] (by decide)).2.2.1⟩

/-- C9: the answer post-processing (trim surrounding whitespace, then collapse
every run of three or more newlines to exactly two) is idempotent. -/
theorem C9_finalize_idempotent :
    ∀ x : List Char, finalizeAnswer (finalizeAnswer x) = finalizeAnswer x :=
  finalizeAnswer_idem

/-- C10: a question whose normalized form starts with a small-talk pattern is
answered with the canned reply, provider name `smalltalk`, empty sources, an
empty provider-attempt trace, and no retrieval. -/
theorem C10_smalltalk (q : List Char) (pdf : List PdfChunk) (provs : List Provider)
    (st : SmallTalkReply) (hst : smallTalk q = some st) :
    handler q pdf provs =
      ⟨200, st.reply, str "smalltalk", str "general", [], buildFollowups (str "all"), [],
        false⟩ := by
  have hping : q ≠ str "__ping__" := by
    intro h
    rw [h] at hst
    rw [show smallTalk (str "__ping__") = none from by decide] at hst
    cases hst
  have hq : q ≠ [] := by
    intro h
    rw [h] at hst
    rw [show smallTalk ([] : List Char) = none from by decide] at hst
    cases hst
  unfold handler
  rw [if_neg hping, if_neg hq]
  simp only [hst]

/-- C10: witness.  The greeting `hello` matches the greet pattern and is
answered by the canned reply with no retrieval and no provider attempt. -/
theorem C10_witness :
    smallTalk (str "hello") = some
      ⟨str "greet",
       str "Hi there! I\x27m your assistant 🤝  Ask me about **AAVSS**, the **Sri Lanka dataset**, or upload a PDF for deeper answers.\nI can also **generate images** or **browse references**. What shall we do first?"⟩ ∧
    handler (str "hello") [] [⟨str "groq", fun _ _ => some (str "hi")⟩] =
      ⟨200,
       str "Hi there! I\x27m your assistant 🤝  Ask me about **AAVSS**, the **Sri Lanka dataset**, or upload a PDF for deeper answers.\nI can also **generate images** or **browse references**. What shall we do first?",
       str "smalltalk", str "general", [], buildFollowups (str "all"), [], false⟩ :=
  ⟨by decide,
   C10_smalltalk (str "hello") [] [⟨str "groq", fun _ _ => some (str "hi")⟩]
     ⟨str "greet",
      str "Hi there! I\x27m your assistant 🤝  Ask me about **AAVSS**, the **Sri Lanka dataset**, or upload a PDF for deeper answers.\nI can also **generate images** or **browse references**. What shall we do first?"⟩
     (by decide)⟩

end AlbumAI
